import Mathlib

/-!
Shallow embedding of the Deribit-client price service
(`app/repositories/deribit_repository.py`, `app/api/api_v1/deribits/deribit_routes.py`,
`app/services/deribit_service.py`, `app/tasks/fetch_prices.py`).

The persistent table `currency_price` is modelled as a list of rows in
insertion (table) order; a SQL `SELECT ... WHERE ...` without `ORDER BY`
returns the filtered rows in table order, and an `ORDER BY` clause is
modelled by a sort of the filtered rows.  The `DECIMAL(20,8)` price column
is modelled as a rational number and the `BIGINT` microsecond timestamp as
an integer.  `int(dt.timestamp() * 1_000_000)` in the date-filter route is
modelled bit-exactly: `datetime.timestamp()` of a naive datetime under a
UTC process timezone (the deployment default) returns the exact integer
POSIX second from `_mktime` — which raises `ValueError` for 0001-01-01,
where its fold probe steps into year 0 — plus `microsecond / 1e6` in
IEEE-754 binary64 arithmetic; the binary64 values are represented exactly
as integers scaled by `2 ^ 80` and every rounding (round to nearest, ties
to even) is carried out on that representation.  HTTP error responses are
modelled by their status code; the detail message strings play no role in
the claims and are omitted.
-/

/-- A row of the `currency_price` table (`app/core/models/currency_price.py`):
`ticker` (`String(10)`), `price` (`Numeric(20,8)`, modelled as `ℚ`),
`timestamp` (`BigInteger` microseconds, modelled as `ℤ`).  The `id` and
`created_at` columns play no role in the claims and are omitted. -/
structure CurrencyPrice where
  ticker : String
  price : ℚ
  timestamp : ℤ
deriving DecidableEq

/-- The table contents, in insertion order. -/
abbrev Store := List CurrencyPrice

/-- Ascending comparison used by `ORDER BY timestamp ASC`. -/
def tsLe (a b : CurrencyPrice) : Prop := a.timestamp ≤ b.timestamp

/-- Descending comparison used by `ORDER BY timestamp DESC`. -/
def tsGe (a b : CurrencyPrice) : Prop := b.timestamp ≤ a.timestamp

instance : DecidableRel tsLe := fun a b =>
  inferInstanceAs (Decidable (a.timestamp ≤ b.timestamp))

instance : DecidableRel tsGe := fun a b =>
  inferInstanceAs (Decidable (b.timestamp ≤ a.timestamp))

instance : IsTotal CurrencyPrice tsLe :=
  ⟨fun a b => Int.le_total a.timestamp b.timestamp⟩

instance : IsTrans CurrencyPrice tsLe :=
  ⟨fun _ _ _ hab hbc => le_trans hab hbc⟩

instance : IsTotal CurrencyPrice tsGe :=
  ⟨fun a b => Int.le_total b.timestamp a.timestamp⟩

instance : IsTrans CurrencyPrice tsGe :=
  ⟨fun _ _ _ hab hbc => le_trans hbc hab⟩

/-- `DeribitRepository.add_price`: creates one `CurrencyPrice` row and
commits.  The new row is appended at the end of the table. -/
def add_price (s : Store) (ticker : String) (price : ℚ) (timestamp : ℤ) : Store :=
  s ++ [⟨ticker, price, timestamp⟩]

/-- `DeribitRepository.get_all_by_ticker`:
`select(CurrencyPrice).where(CurrencyPrice.ticker == ticker)` — the
statement carries no `order_by`, so the rows come back in table order. -/
def get_all_by_ticker (s : Store) (ticker : String) : List CurrencyPrice :=
  s.filter (fun r => r.ticker == ticker)

/-- `DeribitRepository.get_latest`:
`select(...).where(CurrencyPrice.ticker == ticker).order_by(timestamp.desc()).limit(1)`
followed by `scalar_one_or_none()`: the head of the descending-sorted rows,
if any. -/
def get_latest (s : Store) (ticker : String) : Option CurrencyPrice :=
  (List.insertionSort tsGe (s.filter (fun r => r.ticker == ticker))).head?

/-- `DeribitRepository.get_by_range`: a `where ticker ==` clause, then a
`where timestamp >= start_ts` clause only when `start_ts is not None`, then
a `where timestamp <= end_ts` clause only when `end_ts is not None`, then
`order_by(timestamp.asc())`. -/
def get_by_range (s : Store) (ticker : String)
    (start_ts end_ts : Option ℤ) : List CurrencyPrice :=
  let q0 := s.filter (fun r => r.ticker == ticker)
  let q1 := match start_ts with
    | some a => q0.filter (fun r => decide (a ≤ r.timestamp))
    | none => q0
  let q2 := match end_ts with
    | some b => q1.filter (fun r => decide (r.timestamp ≤ b))
    | none => q1
  List.insertionSort tsLe q2

/-- Spec-side predicate: the optional range bounds, each applied
(inclusively) only when present. -/
def boundOk (start_ts end_ts : Option ℤ) (ts : ℤ) : Bool :=
  (match start_ts with
    | some a => decide (a ≤ ts)
    | none => true)
  && (match end_ts with
    | some b => decide (ts ≤ b)
    | none => true)

/-- Outcome of a route handler: a JSON body or an HTTP error status.
The detail message strings of the source are omitted. -/
inductive ApiResult (α : Type) where
  | ok : α → ApiResult α
  | httpError : Nat → ApiResult α
deriving DecidableEq

instance {ε α : Type} [DecidableEq ε] [DecidableEq α] : DecidableEq (Except ε α) := fun x y =>
  match x, y with
  | Except.ok a, Except.ok b =>
      if h : a = b then Decidable.isTrue (congrArg Except.ok h)
      else Decidable.isFalse (fun hh => h (Except.ok.inj hh))
  | Except.ok _, Except.error _ => Decidable.isFalse (fun hh => Except.noConfusion hh)
  | Except.error _, Except.ok _ => Decidable.isFalse (fun hh => Except.noConfusion hh)
  | Except.error e, Except.error f =>
      if h : e = f then Decidable.isTrue (congrArg Except.error h)
      else Decidable.isFalse (fun hh => h (Except.error.inj hh))

/-- The ticker whitelist inlined in each route handler of
`deribit_routes.py` as the list literal `["btc_usd", "eth_usd"]`. -/
def whitelist : List String := ["btc_usd", "eth_usd"]

/-- Route `GET /` (`get_all_prices`): reject a ticker outside the whitelist
with 400, else delegate to `get_all_by_ticker`. -/
def get_all_prices (st : Store) (ticker : String) : ApiResult (List CurrencyPrice) :=
  if whitelist.contains ticker then ApiResult.ok (get_all_by_ticker st ticker)
  else ApiResult.httpError 400

/-- Route `GET /latest` (`get_latest_price`): reject a ticker outside the
whitelist with 400; 404 when `get_latest` returns `None` (the ORM row
object is truthy, so `if not latest_price` is exactly the `None` test);
else return the row. -/
def get_latest_price (st : Store) (ticker : String) : ApiResult CurrencyPrice :=
  if whitelist.contains ticker then
    match get_latest st ticker with
    | some r => ApiResult.ok r
    | none => ApiResult.httpError 404
  else ApiResult.httpError 400

/-- Numeric value of a decimal digit character. -/
def digitVal (c : Char) : Nat := c.toNat - 48

/-- Split a character list at every dash, keeping empty groups: the model
of how the literal dashes in the pattern compiled from `%Y-%m-%d` cut the
input into the three all-digit tokens. -/
def splitDash : List Char → List (List Char)
  | [] => [[]]
  | c :: rest =>
      let r := splitDash rest
      if c = '-' then [] :: r
      else match r with
        | [] => [[c]]
        | g :: gs => (c :: g) :: gs

/-- Model of `%Y` in CPython `_strptime`: exactly four digits. -/
def yearTok (t : List Char) : Option Nat :=
  match t with
  | [a, b, c, d] =>
      if a.isDigit && b.isDigit && c.isDigit && d.isDigit then
        some (1000 * digitVal a + 100 * digitVal b + 10 * digitVal c + digitVal d)
      else none
  | _ => none

/-- Model of `%m` in CPython `_strptime` (regex `1[0-2]|0[1-9]|[1-9]`),
matched against the whole token between the dashes. -/
def monthTok (t : List Char) : Option Nat :=
  match t with
  | ['1', c] => if '0' ≤ c && c ≤ '2' then some (10 + digitVal c) else none
  | ['0', c] => if '1' ≤ c && c ≤ '9' then some (digitVal c) else none
  | [c] => if '1' ≤ c && c ≤ '9' then some (digitVal c) else none
  | _ => none

/-- Model of `%d` in CPython `_strptime` (regex `3[01]|[12][0-9]|0[1-9]|[1-9]`),
matched against the whole token between the dashes. -/
def dayTok (t : List Char) : Option Nat :=
  match t with
  | ['3', c] => if '0' ≤ c && c ≤ '1' then some (30 + digitVal c) else none
  | ['0', c] => if '1' ≤ c && c ≤ '9' then some (digitVal c) else none
  | [a, c] => if ('1' ≤ a && a ≤ '2') && c.isDigit then some (10 * digitVal a + digitVal c) else none
  | [c] => if '1' ≤ c && c ≤ '9' then some (digitVal c) else none
  | _ => none

/-- Gregorian leap-year rule, as in CPython `datetime`. -/
def isLeap (y : Nat) : Bool := y % 4 == 0 && (y % 100 != 0 || y % 400 == 0)

/-- Days in a month, as in CPython `datetime`. -/
def daysInMonth (y m : Nat) : Nat :=
  if m = 2 then (if isLeap y then 29 else 28)
  else if m = 4 || m = 6 || m = 9 || m = 11 then 30
  else 31

/-- Model of `datetime.strptime(s, "%Y-%m-%d")`: the compiled regex must
match the whole string, and the `datetime` constructor then requires
`1 <= year` and a day that exists in the month (else `ValueError`). -/
def strptimeYmd (s : String) : Option (Nat × Nat × Nat) :=
  match splitDash s.toList with
  | [ys, ms, ds] =>
      match yearTok ys, monthTok ms, dayTok ds with
      | some y, some m, some d =>
          if 1 ≤ y && d ≤ daysInMonth y m then some (y, m, d) else none
      | _, _, _ => none
  | _ => none

/-- `date.toordinal` helper of CPython: days in all years before `y`. -/
def daysBeforeYear (y : Nat) : Nat :=
  365 * (y - 1) + (y - 1) / 4 - (y - 1) / 100 + (y - 1) / 400

/-- `date.toordinal` helper of CPython: days in the months of year `y`
before month `m`. -/
def daysBeforeMonth (y m : Nat) : Nat :=
  ((List.range (m - 1)).map (fun i => daysInMonth y (i + 1))).sum

/-- CPython `date(y, m, d).toordinal()`. -/
def toordinal (y m d : Nat) : Nat :=
  daysBeforeYear y + daysBeforeMonth y m + d

/-- Days between `date(y, m, d)` and the Unix epoch day 1970-01-01
(whose ordinal is 719163). -/
def dateToEpochDays (y m d : Nat) : ℤ :=
  (toordinal y m d : ℤ) - 719163

/-- Whether `2 ^ e ≤ P / q`, by integer cross-multiplication. -/
def le2exp (e : ℤ) (P q : ℕ) : Bool :=
  if 0 ≤ e then q * 2 ^ e.toNat ≤ P else q ≤ P * 2 ^ (-e).toNat

/-- First exponent in the candidate list bounding `P / q` from below. -/
def findExp (P q : ℕ) : List ℤ → ℤ
  | [] => -100
  | e :: rest => if le2exp e P q then e else findExp P q rest

/-- The binade exponent of `P / q`: the `e` with `2 ^ e ≤ P / q < 2 ^ (e+1)`,
searched downward over the exponent range of the timestamp pipeline. -/
def floorLog2Rat (P q : ℕ) : ℤ :=
  findExp P q ((List.range 90).map (fun i => (60 : ℤ) - i))

/-- Round the exact rational `p / q` (with `q > 0`) to the nearest IEEE-754
binary64 value, ties to even; the result is returned scaled by `2 ^ 80`,
which is an integer for every value of the timestamp pipeline (binade
exponents stay above `-28`, far from the subnormal range, and no overflow
occurs). -/
def roundB64Scaled (p : ℤ) (q : ℕ) : ℤ :=
  if p = 0 then 0
  else
    let P := p.natAbs
    let e := floorLog2Rat P q
    let num := P * 2 ^ (52 - e).toNat
    let den := q * 2 ^ (e - 52).toNat
    let n := num / den
    let r := num % den
    let n2 := if 2 * r < den then n else if den < 2 * r then n + 1 else (if n % 2 = 0 then n else n + 1)
    let mag : ℕ := n2 * 2 ^ (e + 28).toNat
    if 0 ≤ p then (mag : ℤ) else -(mag : ℤ)

/-- Python `int()` on a float scaled by `2 ^ 80`: truncation toward zero. -/
def truncScaled (v : ℤ) : ℤ :=
  if 0 ≤ v then ((v.natAbs / 2 ^ 80 : ℕ) : ℤ) else -((v.natAbs / 2 ^ 80 : ℕ) : ℤ)

/-- CPython `datetime.timestamp()` of a naive datetime under a UTC process
timezone, scaled by `2 ^ 80`: `_mktime()` returns the exact integer POSIX
second `s`, and `s + microsecond / 1e6` performs one binary64 division and
one binary64 addition. -/
def pyTimestampScaled (s : ℤ) (us : ℕ) : ℤ :=
  roundB64Scaled (roundB64Scaled s 1 + roundB64Scaled us 1000000) (2 ^ 80)

/-- `int(dt.timestamp() * 1_000_000)` for the naive datetime with POSIX
second `s` and microsecond `us`: one binary64 multiplication, then
truncation toward zero. -/
def pyDatetimeToMicros (s : ℤ) (us : ℕ) : ℤ :=
  truncScaled (roundB64Scaled (pyTimestampScaled s us * 1000000) (2 ^ 80))

/-- The `start_date` conversion value: `int(dt.timestamp() * 1_000_000)` at
midnight of the parsed day.  `None` models the `ValueError` that
`timestamp()` raises for 0001-01-01, where the fold probe of `_mktime`
builds a datetime in year 0. -/
def pyStartTimestampMicros (y m d : Nat) : Option ℤ :=
  if y = 1 ∧ m = 1 ∧ d = 1 then none
  else some (pyDatetimeToMicros (dateToEpochDays y m d * 86400) 0)

/-- The `end_date` conversion value: `int(dt.timestamp() * 1_000_000)` at
23:59:59.999999 of the parsed day, with the same 0001-01-01 `ValueError`. -/
def pyEndTimestampMicros (y m d : Nat) : Option ℤ :=
  if y = 1 ∧ m = 1 ∧ d = 1 then none
  else some (pyDatetimeToMicros (dateToEpochDays y m d * 86400 + 86399) 999999)

/-- The `start_date` branch of route `GET /filter`: `start_ts = None`, and
only a truthy (present and non-empty) parameter enters the `try` block;
inside it, a `ValueError` from either `strptime` or `timestamp()` raises
the 400 error, and success yields the midnight timestamp. -/
def parseStartTs (sd : Option String) : Except Unit (Option ℤ) :=
  match sd with
  | none => Except.ok none
  | some s =>
      if s = "" then Except.ok none
      else match strptimeYmd s with
        | some (y, m, d) =>
            match pyStartTimestampMicros y m d with
            | some ts => Except.ok (some ts)
            | none => Except.error ()
        | none => Except.error ()

/-- The `end_date` branch of route `GET /filter`: as `parseStartTs`, but a
parse success is completed with
`replace(hour=23, minute=59, second=59, microsecond=999999)` before the
conversion. -/
def parseEndTs (ed : Option String) : Except Unit (Option ℤ) :=
  match ed with
  | none => Except.ok none
  | some s =>
      if s = "" then Except.ok none
      else match strptimeYmd s with
        | some (y, m, d) =>
            match pyEndTimestampMicros y m d with
            | some ts => Except.ok (some ts)
            | none => Except.error ()
        | none => Except.error ()

/-- Route `GET /filter` (`get_prices_by_date`): ticker whitelist check,
then the two date conversions, then delegation to `get_by_range`. -/
def get_prices_by_date (st : Store) (ticker : String)
    (start_date end_date : Option String) : ApiResult (List CurrencyPrice) :=
  if whitelist.contains ticker then
    match parseStartTs start_date with
    | Except.error _ => ApiResult.httpError 400
    | Except.ok sts =>
        match parseEndTs end_date with
        | Except.error _ => ApiResult.httpError 400
        | Except.ok ets => ApiResult.ok (get_by_range st ticker sts ets)
  else ApiResult.httpError 400

/-- The fixed ticker list iterated by `fetch_prices_internal`. -/
def tickers : List String := ["btc_usd", "eth_usd"]

/-- `DeribitService.collect_and_save_prices`, over an oracle `fetch` for
`DeribitClient.get_index_data` (returning the parsed
`(index_price, usIn)` pair or a network/parse failure) and an oracle
`persistOk` telling whether the database commit succeeds.  On a fetch
failure the exception propagates and nothing is stored; on a persistence
failure the commit does not happen, so the table is likewise unchanged. -/
def collect_and_save_prices (fetch : String → Except String (ℚ × ℤ))
    (persistOk : String → ℚ → ℤ → Bool) (s : Store) (t : String) :
    Except String Store :=
  match fetch t with
  | Except.error e => Except.error e
  | Except.ok (p, ts) =>
      if persistOk t p ts then Except.ok (add_price s t p ts)
      else Except.error "db"

/-- One iteration of the ticker loop in `fetch_prices_internal`: the
`try/except Exception` block that logs and swallows any failure. -/
def tryIngestTicker (fetch : String → Except String (ℚ × ℤ))
    (persistOk : String → ℚ → ℤ → Bool) (s : Store) (t : String) : Store :=
  match collect_and_save_prices fetch persistOk s t with
  | Except.ok s2 => s2
  | Except.error _ => s

/-- The table contents after one ingestion cycle over `tickers`. -/
def cycleResult (fetch : String → Except String (ℚ × ℤ))
    (persistOk : String → ℚ → ℤ → Bool) (s : Store) : Store :=
  tickers.foldl (tryIngestTicker fetch persistOk) s

/-- `fetch_prices_internal` of `app/tasks/fetch_prices.py`: the loop over
`["btc_usd", "eth_usd"]` with a `try/except` around each iteration.  The
`Except` result type records whether the cycle itself raises; session
acquisition and disposal are modelled as non-failing, so the only failure
sources are the per-ticker fetch and persist oracles. -/
def fetch_prices_internal (fetch : String → Except String (ℚ × ℤ))
    (persistOk : String → ℚ → ℤ → Bool) (s : Store) : Except String Store :=
  Except.ok (cycleResult fetch persistOk s)

/-- The iteration for ticker `t` fails (network, parse, or persistence). -/
def ingestFails (fetch : String → Except String (ℚ × ℤ))
    (persistOk : String → ℚ → ℤ → Bool) (t : String) : Prop :=
  ∀ p ts, fetch t = Except.ok (p, ts) → persistOk t p ts = false

/-- A store whose `btc_usd` rows were inserted in decreasing timestamp
order. -/
def outOfOrderStore : Store :=
  [⟨"btc_usd", 2, 2⟩, ⟨"btc_usd", 1, 1⟩]

/-- A small store used to instantiate the general theorems. -/
def demoStore : Store := [⟨"btc_usd", 50, 10⟩, ⟨"btc_usd", 60, 20⟩]

/-- Fetch oracle of Scenario C: the network call fails for `btc_usd` and
succeeds for `eth_usd`. -/
def fetchScenarioC : String → Except String (ℚ × ℤ) :=
  fun t => if t = "btc_usd" then Except.error "network" else Except.ok (3000, 5)

/-- Persistence oracle that always commits. -/
def persistAlways : String → ℚ → ℤ → Bool := fun _ _ _ => true

theorem whitelist_contains_of_mem (t : String) (h : t ∈ whitelist) :
    whitelist.contains t = true :=
  List.elem_eq_true_of_mem h

theorem get_by_range_eq (s : Store) (ticker : String) (a b : Option ℤ) :
    get_by_range s ticker a b
      = List.insertionSort tsLe
          (s.filter (fun r => r.ticker == ticker && boundOk a b r.timestamp)) := by
  cases a <;> cases b <;>
    simp only [get_by_range, boundOk, List.filter_filter] <;>
    exact congrArg _ (List.filter_congr (fun r hr => by
      simp [Bool.and_assoc, Bool.and_comm, Bool.and_left_comm]))

theorem head_insertionSort_max (l : List CurrencyPrice) (r : CurrencyPrice)
    (h : (List.insertionSort tsGe l).head? = some r) :
    r ∈ l ∧ ∀ r2 ∈ l, r2.timestamp ≤ r.timestamp := by
  have hperm := List.perm_insertionSort tsGe l
  have hsorted := List.sorted_insertionSort tsGe l
  rcases hl : List.insertionSort tsGe l with _ | ⟨x, xs⟩
  · rw [hl] at h
    simp at h
  · rw [hl] at h hperm hsorted
    simp only [List.head?_cons, Option.some_inj] at h
    subst h
    refine ⟨hperm.mem_iff.mp (List.mem_cons_self x xs), ?_⟩
    intro r2 hr2
    rcases List.mem_cons.mp (hperm.mem_iff.mpr hr2) with h2 | h2
    · subst h2
      exact le_rfl
    · exact List.rel_of_sorted_cons hsorted r2 h2

theorem insertionSort_eq_nil_iff (l : List CurrencyPrice) :
    List.insertionSort tsGe l = [] ↔ l = [] := by
  have hperm := List.perm_insertionSort tsGe l
  constructor
  · intro h
    rw [h] at hperm
    exact hperm.symm.eq_nil
  · intro h
    rw [h]
    rfl

theorem get_all_append (s : Store) (r : CurrencyPrice) (t : String) :
    get_all_by_ticker (s ++ [r]) t
      = get_all_by_ticker s t ++ (if r.ticker == t then [r] else []) := by
  simp only [get_all_by_ticker, List.filter_append]
  cases h : (r.ticker == t) <;> simp [List.filter, h]

theorem tryIngest_of_fails (fetch : String → Except String (ℚ × ℤ))
    (persistOk : String → ℚ → ℤ → Bool) (s : Store) (t : String)
    (h : ingestFails fetch persistOk t) :
    tryIngestTicker fetch persistOk s t = s := by
  rw [tryIngestTicker, collect_and_save_prices]
  rcases hf : fetch t with e | ⟨p, ts⟩
  · rfl
  · simp [h p ts hf]

theorem tryIngest_ticker_other (fetch : String → Except String (ℚ × ℤ))
    (persistOk : String → ℚ → ℤ → Bool) (s : Store) (t t2 : String)
    (hne : (t == t2) = false) :
    get_all_by_ticker (tryIngestTicker fetch persistOk s t) t2
      = get_all_by_ticker s t2 := by
  rw [tryIngestTicker, collect_and_save_prices]
  rcases hf : fetch t with e | ⟨p, ts⟩
  · rfl
  · cases hp : persistOk t p ts
    · simp [hp]
    · simp [hp, add_price, get_all_append, hne]

/-- C1: for every ticker and stored set of records, `get_by_range` returns
exactly the records of that ticker whose timestamp satisfies the present
bounds (both inclusive, each applied only when present), ordered ascending
by timestamp, and the empty sequence when no record matches. -/
theorem get_by_range_spec (s : Store) (ticker : String) (a b : Option ℤ) :
    List.Sorted tsLe (get_by_range s ticker a b)
    ∧ (get_by_range s ticker a b).Perm
        (s.filter (fun r => r.ticker == ticker && boundOk a b r.timestamp))
    ∧ ((∀ r ∈ s, (r.ticker == ticker && boundOk a b r.timestamp) = false) →
        get_by_range s ticker a b = []) := by
  rw [get_by_range_eq]
  refine ⟨List.sorted_insertionSort tsLe _, List.perm_insertionSort tsLe _, ?_⟩
  intro h
  have hnil : s.filter (fun r => r.ticker == ticker && boundOk a b r.timestamp) = [] := by
    rw [List.filter_eq_nil_iff]
    intro r hr
    simp [h r hr]
  rw [hnil]
  rfl

/-- C1 witness: on a concrete store with no `eth_usd` records in range,
`get_by_range` returns the empty list. -/
theorem get_by_range_spec_witness :
    get_by_range demoStore "eth_usd" (some 0) (some 100) = [] :=
  (get_by_range_spec demoStore "eth_usd" (some 0) (some 100)).2.2 (by decide)

/-- C2 (divergence): `get_all_by_ticker` carries no `ORDER BY`, so on a
store whose rows were inserted in decreasing timestamp order it returns
them in table order, which is not ascending by timestamp — contradicting
its own docstring ("sorted by timestamp in ascending order"). -/
theorem get_all_by_ticker_unsorted_bug :
    get_all_by_ticker outOfOrderStore "btc_usd"
      = [⟨"btc_usd", 2, 2⟩, ⟨"btc_usd", 1, 1⟩]
    ∧ ¬ List.Sorted tsLe (get_all_by_ticker outOfOrderStore "btc_usd") := by
  decide

/-- C3 counterexample: for the ticker `doge_usd`, which has no records in
the empty store, `get_latest` does return `None`, but the `/latest` route
answers 400 (whitelist rejection), not the 404 the claim states for every
ticker. -/
theorem latest_unknown_ticker_counterexample :
    get_latest ([] : Store) "doge_usd" = none
    ∧ get_latest_price ([] : Store) "doge_usd" = ApiResult.httpError 400
    ∧ get_latest_price ([] : Store) "doge_usd" ≠ ApiResult.httpError 404 := by
  decide

/-- C3 (amended): for every ticker, `get_latest` returns `None` exactly
when the ticker has no records, and otherwise a record of maximum
timestamp; for whitelisted tickers the `/latest` route answers 404 in the
empty case and returns the maximal record otherwise. -/
theorem get_latest_spec (s : Store) (t : String) :
    (get_latest s t = none ↔ get_all_by_ticker s t = [])
    ∧ (∀ r, get_latest s t = some r →
        r ∈ get_all_by_ticker s t
        ∧ ∀ r2 ∈ get_all_by_ticker s t, r2.timestamp ≤ r.timestamp)
    ∧ (t ∈ whitelist → get_all_by_ticker s t = [] →
        get_latest_price s t = ApiResult.httpError 404)
    ∧ (t ∈ whitelist → ∀ r, get_latest s t = some r →
        get_latest_price s t = ApiResult.ok r) := by
  refine ⟨?_, ?_, ?_, ?_⟩
  · rw [get_latest, List.head?_eq_none_iff, get_all_by_ticker]
    exact insertionSort_eq_nil_iff _
  · intro r hr
    exact head_insertionSort_max _ r hr
  · intro hw hnil
    have hnone : get_latest s t = none := by
      rw [get_latest, List.head?_eq_none_iff, insertionSort_eq_nil_iff]
      exact hnil
    rw [get_latest_price, whitelist_contains_of_mem t hw]
    simp [hnone]
  · intro hw r hr
    rw [get_latest_price, whitelist_contains_of_mem t hw]
    simp [hr]

/-- C3 witness: on a concrete store the `/latest` route returns the record
with the maximal timestamp, and 404 on the empty store. -/
theorem get_latest_spec_witness :
    get_latest_price demoStore "btc_usd" = ApiResult.ok ⟨"btc_usd", 60, 20⟩
    ∧ get_latest_price ([] : Store) "btc_usd" = ApiResult.httpError 404 :=
  ⟨(get_latest_spec demoStore "btc_usd").2.2.2 (by decide) ⟨"btc_usd", 60, 20⟩ (by decide),
   (get_latest_spec [] "btc_usd").2.2.1 (by decide) (by decide)⟩

/-- C4: for every fetch and persistence oracle, the ingestion cycle never
raises; a failed ticker's rows are unchanged; a `btc_usd` failure does not
prevent `eth_usd` from being fetched and stored (and symmetrically the
`eth_usd` conjunct); and tickers outside the cycle are never touched. -/
theorem fetch_cycle_isolation (fetch : String → Except String (ℚ × ℤ))
    (persistOk : String → ℚ → ℤ → Bool) (s : Store) :
    fetch_prices_internal fetch persistOk s
      = Except.ok (cycleResult fetch persistOk s)
    ∧ (ingestFails fetch persistOk "btc_usd" →
        get_all_by_ticker (cycleResult fetch persistOk s) "btc_usd"
          = get_all_by_ticker s "btc_usd"
        ∧ ∀ p ts, fetch "eth_usd" = Except.ok (p, ts) →
            persistOk "eth_usd" p ts = true →
            cycleResult fetch persistOk s = add_price s "eth_usd" p ts)
    ∧ (ingestFails fetch persistOk "eth_usd" →
        get_all_by_ticker (cycleResult fetch persistOk s) "eth_usd"
          = get_all_by_ticker s "eth_usd")
    ∧ (∀ t2, t2 ≠ "btc_usd" → t2 ≠ "eth_usd" →
        get_all_by_ticker (cycleResult fetch persistOk s) t2
          = get_all_by_ticker s t2) := by
  have hcycle : cycleResult fetch persistOk s
      = tryIngestTicker fetch persistOk (tryIngestTicker fetch persistOk s "btc_usd") "eth_usd" := rfl
  refine ⟨rfl, ?_, ?_, ?_⟩
  · intro hb
    rw [hcycle, tryIngest_of_fails fetch persistOk s "btc_usd" hb]
    constructor
    · exact tryIngest_ticker_other fetch persistOk s "eth_usd" "btc_usd" (by decide)
    · intro p ts hf hp
      rw [tryIngestTicker, collect_and_save_prices, hf]
      simp [hp]
  · intro he
    rw [hcycle, tryIngest_of_fails fetch persistOk _ "eth_usd" he]
    exact tryIngest_ticker_other fetch persistOk s "btc_usd" "eth_usd" (by decide)
  · intro t2 h1 h2
    rw [hcycle,
      tryIngest_ticker_other fetch persistOk _ "eth_usd" t2 (by simp [Ne.symm h2]),
      tryIngest_ticker_other fetch persistOk s "btc_usd" t2 (by simp [Ne.symm h1])]

/-- C4 witness (Scenario C): fetch fails for `btc_usd` and succeeds for
`eth_usd`; the cycle returns normally with exactly the new `eth_usd` row. -/
theorem fetch_cycle_isolation_witness :
    fetch_prices_internal fetchScenarioC persistAlways []
      = Except.ok [⟨"eth_usd", 3000, 5⟩] := by
  have h := fetch_cycle_isolation fetchScenarioC persistAlways []
  have hfail : ingestFails fetchScenarioC persistAlways "btc_usd" := by
    intro p ts hpt
    simp [fetchScenarioC] at hpt
  have h2 := (h.2.1 hfail).2 3000 5 (by rfl) (by rfl)
  rw [h.1, h2]
  rfl

/-- C5: every route rejects a ticker outside the whitelist with 400,
independently of the store contents (no store access is needed), and
accepts the whitelisted tickers: the list route answers `ok`, the latest
route never answers 400, and the filter route with absent dates answers
`ok`. -/
theorem ticker_whitelist_spec (s1 s2 : Store) (t : String) (sd ed : Option String) :
    (t ∉ whitelist →
        get_all_prices s1 t = ApiResult.httpError 400
        ∧ get_latest_price s1 t = ApiResult.httpError 400
        ∧ get_prices_by_date s1 t sd ed = ApiResult.httpError 400
        ∧ get_all_prices s1 t = get_all_prices s2 t
        ∧ get_latest_price s1 t = get_latest_price s2 t
        ∧ get_prices_by_date s1 t sd ed = get_prices_by_date s2 t sd ed)
    ∧ (t ∈ whitelist →
        get_all_prices s1 t = ApiResult.ok (get_all_by_ticker s1 t)
        ∧ get_latest_price s1 t ≠ ApiResult.httpError 400
        ∧ get_prices_by_date s1 t none none = ApiResult.ok (get_by_range s1 t none none)) := by
  constructor
  · intro hw
    have hc : whitelist.contains t = false := by
      rw [Bool.eq_false_iff]
      intro hc2
      exact hw (List.mem_of_elem_eq_true hc2)
    rw [get_all_prices, get_latest_price, get_prices_by_date, hc]
    simp
    rw [get_all_prices, get_latest_price, get_prices_by_date, hc]
    simp
  · intro hw
    rw [get_all_prices, get_latest_price, get_prices_by_date, whitelist_contains_of_mem t hw]
    refine ⟨rfl, ?_, rfl⟩
    cases get_latest s1 t <;> simp

/-- C5 witness: `BTC_USD` (wrong case) is rejected with 400 and `btc_usd`
is accepted. -/
theorem ticker_whitelist_spec_witness :
    get_all_prices ([] : Store) "BTC_USD" = ApiResult.httpError 400
    ∧ get_all_prices ([] : Store) "btc_usd" = ApiResult.ok [] := by
  refine ⟨((ticker_whitelist_spec [] [] "BTC_USD" none none).1 (by decide)).1, ?_⟩
  have h := ((ticker_whitelist_spec [] [] "btc_usd" none none).2 (by decide)).1
  rw [h]
  rfl

/-- C6 (divergence): the route intends the first/last microsecond of the
UTC day (`dt.replace(hour=23, minute=59, second=59, microsecond=999999)`),
and achieves it near the epoch (`2022-01-01` maps to the first and last
microsecond of that day), but the binary64 computation
`int(dt.timestamp() * 1_000_000)` misses it at well-formed distant dates:
`end_date=2250-01-01` yields 23:59:59.999998 (one microsecond short of the
last microsecond 8836041599999999), `end_date=9999-12-31` yields the next
day's first microsecond, and `0001-01-01` is not converted at all —
`timestamp()` raises `ValueError` and the route answers 400. -/
theorem date_conversion_float_bug :
    strptimeYmd "2250-01-01" = some (2250, 1, 1)
    ∧ parseEndTs (some "2250-01-01") = Except.ok (some 8836041599999998)
    ∧ (dateToEpochDays 2250 1 1 + 1) * 86400000000 - 1 = 8836041599999999
    ∧ strptimeYmd "9999-12-31" = some (9999, 12, 31)
    ∧ parseEndTs (some "9999-12-31") = Except.ok (some 253402300800000000)
    ∧ (dateToEpochDays 9999 12 31 + 1) * 86400000000 = 253402300800000000
    ∧ strptimeYmd "0001-01-01" = some (1, 1, 1)
    ∧ parseStartTs (some "0001-01-01") = Except.error ()
    ∧ parseEndTs (some "0001-01-01") = Except.error ()
    ∧ get_prices_by_date [] "btc_usd" (some "0001-01-01") none = ApiResult.httpError 400
    ∧ parseStartTs (some "2022-01-01") = Except.ok (some 1640995200000000)
    ∧ dateToEpochDays 2022 1 1 * 86400000000 = 1640995200000000
    ∧ parseEndTs (some "2022-01-01") = Except.ok (some 1641081599999999)
    ∧ (dateToEpochDays 2022 1 1 + 1) * 86400000000 - 1 = 1641081599999999 := by
  decide

/-- C8 (divergence): with both bounds absent, `get_by_range` returns the
ticker's rows sorted ascending by timestamp while `get_all_by_ticker`
returns them in table order, so on a store inserted out of timestamp order
the two sequences contain the same records but in different orders. -/
theorem range_vs_all_order_bug :
    get_by_range outOfOrderStore "btc_usd" none none
      = [⟨"btc_usd", 1, 1⟩, ⟨"btc_usd", 2, 2⟩]
    ∧ get_all_by_ticker outOfOrderStore "btc_usd"
      = [⟨"btc_usd", 2, 2⟩, ⟨"btc_usd", 1, 1⟩]
    ∧ get_by_range outOfOrderStore "btc_usd" none none
      ≠ get_all_by_ticker outOfOrderStore "btc_usd"
    ∧ (get_by_range outOfOrderStore "btc_usd" none none).Perm
        (get_all_by_ticker outOfOrderStore "btc_usd") := by
  decide

/-- C10: a present-but-empty `start_date` or `end_date` is treated exactly
as an absent one, because the handler tests truthiness (`if start_date:`)
rather than presence; with a whitelisted ticker and both parameters empty
the route answers `ok` with the unbounded range query. -/
theorem empty_date_param_spec (s : Store) (t : String) :
    (∀ ed, get_prices_by_date s t (some "") ed = get_prices_by_date s t none ed)
    ∧ (∀ sd, get_prices_by_date s t sd (some "") = get_prices_by_date s t sd none)
    ∧ (t ∈ whitelist →
        get_prices_by_date s t (some "") (some "")
          = ApiResult.ok (get_by_range s t none none)) := by
  refine ⟨fun ed => rfl, fun sd => rfl, fun hw => ?_⟩
  rw [get_prices_by_date, whitelist_contains_of_mem t hw]
  rfl

/-- C10 witness: empty date parameters on a concrete request produce the
full (unfiltered) result, not a 400. -/
theorem empty_date_param_spec_witness :
    get_prices_by_date ([] : Store) "btc_usd" (some "") (some "") = ApiResult.ok [] := by
  have h := (empty_date_param_spec [] "btc_usd").2.2 (by decide)
  rw [h]
  decide
